import Mathlib

/-!
A shallow embedding of the CPAP analysis pipeline of `cpap_analysis.py`:
row validation, ADC-to-pressure conversion, orifice flow computation,
breath detection (a model of `scipy.signal.find_peaks` composed with the
custom cycle-completion filter), apnea counting, leakage integration and
the metrics aggregator.  Machine floats are idealised as `ℚ` (exact
rational arithmetic) resp. `ℝ` where a square root occurs; Python
exceptions are modelled with `Except`; the two I/O touch points (file
read, artifact write) are modelled by passing the file's lines resp. the
write outcome explicitly.
-/

/-! ### Model of Python `float()` / `int()` string parsing -/

/-- ASCII whitespace stripped by Python `float()`/`int()` around a numeric
string (space, tab, newline, carriage return, vertical tab, form feed). -/
def isPyWs (c : Char) : Bool :=
  c = ' ' || c = '\t' || c = '\n' || c = '\r' || c = Char.ofNat 11 || c = Char.ofNat 12

/-- Strip leading and trailing Python whitespace from a character list. -/
def stripWs (l : List Char) : List Char :=
  ((l.dropWhile isPyWs).reverse.dropWhile isPyWs).reverse

/-- Continue a run of decimal digits, allowing a single underscore between
two digits as Python numeric literals do.  Returns the accumulated value,
the number of digits consumed, and the unconsumed rest.  An underscore not
followed by a digit terminates the run unconsumed (so the caller fails on
it, as Python rejects e.g. `1_` and `1__2`). -/
def digitsU : ℕ → ℕ → List Char → ℕ × ℕ × List Char
  | v, k, [] => (v, k, [])
  | v, k, c :: cs =>
    if c.isDigit then digitsU (10 * v + (c.toNat - 48)) (k + 1) cs
    else if c = '_' then
      match cs with
      | d :: cs2 =>
        if d.isDigit then digitsU (10 * v + (d.toNat - 48)) (k + 1) cs2
        else (v, k, c :: cs)
      | [] => (v, k, c :: cs)
    else (v, k, c :: cs)

/-- A digit run must start with a digit (Python rejects a leading
underscore).  Returns value, digit count and rest, or `none`. -/
def parseDigits (l : List Char) : Option (ℕ × ℕ × List Char) :=
  match l with
  | c :: _ => if c.isDigit then some (digitsU 0 0 l) else none
  | [] => none

/-- Optional exponent part `([eE][+-]?digits)?` of a Python float literal,
applied to an already-parsed mantissa. -/
def parseExpPart (mant : ℚ) (l : List Char) : Option (ℚ × List Char) :=
  match l with
  | c :: cs =>
    if c = 'e' || c = 'E' then
      let signRest : Bool × List Char :=
        match cs with
        | '+' :: r => (false, r)
        | '-' :: r => (true, r)
        | _ => (false, cs)
      match parseDigits signRest.2 with
      | some (e, _, rest) =>
        some (mant * (if signRest.1 then (1 / 10 : ℚ) ^ e else (10 : ℚ) ^ e), rest)
      | none => none
    else some (mant, c :: cs)
  | [] => some (mant, [])

/-- Numeric part of a Python float literal:
`digits [. digits?] [exp] | . digits [exp]` (value idealised in `ℚ`). -/
def parseNumber (l : List Char) : Option (ℚ × List Char) :=
  match parseDigits l with
  | some (v, _, rest) =>
    match rest with
    | '.' :: rest2 =>
      match parseDigits rest2 with
      | some (f, kf, rest3) => parseExpPart ((v : ℚ) + (f : ℚ) / (10 : ℚ) ^ kf) rest3
      | none => parseExpPart (v : ℚ) rest2
    | _ => parseExpPart (v : ℚ) rest
  | none =>
    match l with
    | '.' :: rest2 =>
      match parseDigits rest2 with
      | some (f, kf, rest3) => parseExpPart ((f : ℚ) / (10 : ℚ) ^ kf) rest3
      | none => none
    | _ => none

/-- Result of a successful Python `float()` call: a finite rational
(idealised, no rounding), an infinity, or a quiet NaN. -/
inductive PyFloat where
  | finite (q : ℚ)
  | inf
  | ninf
  | nan
deriving DecidableEq, Repr, Inhabited

/-- Model of CPython `float(str)` on a character list: strip whitespace,
optional sign, then either a (case-insensitive) `inf`/`infinity`/`nan`
name or a numeric literal consuming the whole remainder.  (Only ASCII
digits/whitespace are modelled.) -/
def pyFloatOfChars (l0 : List Char) : Option PyFloat :=
  let l := stripWs l0
  let signRest : Bool × List Char :=
    match l with
    | '+' :: r => (false, r)
    | '-' :: r => (true, r)
    | _ => (false, l)
  let low := signRest.2.map Char.toLower
  if low = "inf".toList || low = "infinity".toList then
    some (if signRest.1 then PyFloat.ninf else PyFloat.inf)
  else if low = "nan".toList then some PyFloat.nan
  else
    match parseNumber signRest.2 with
    | some (q, []) => some (PyFloat.finite (if signRest.1 then -q else q))
    | _ => none

/-- Model of CPython `float(str)`. -/
def pyFloatParse (s : String) : Option PyFloat := pyFloatOfChars s.toList

/-- Model of CPython `int(str)` (base 10): strip whitespace, optional sign,
then a digit run (underscores between digits allowed) consuming the whole
remainder — no dot, no exponent, no inf/nan names. -/
def pyIntOfChars (l0 : List Char) : Option ℤ :=
  let l := stripWs l0
  let signRest : Bool × List Char :=
    match l with
    | '+' :: r => (false, r)
    | '-' :: r => (true, r)
    | _ => (false, l)
  match parseDigits signRest.2 with
  | some (v, _, []) => some (if signRest.1 then -(v : ℤ) else (v : ℤ))
  | _ => none

/-- Model of CPython `int(str)`. -/
def pyIntParse (s : String) : Option ℤ := pyIntOfChars s.toList

/-! ### Record loader and validator -/

/-- Model of Python `str.split(",")` on a character list; always returns a
nonempty list of fields (splitting the empty string yields `[[]]`). -/
def splitCommaChars : List Char → List (List Char)
  | [] => [[]]
  | c :: cs =>
    match splitCommaChars cs with
    | [] => [[]]
    | l :: ls => if c = ',' then [] :: l :: ls else (c :: l) :: ls

/-- Model of Python `line.split(",")`. -/
def splitComma (s : String) : List String :=
  (splitCommaChars s.toList).map (fun l => String.mk l)

/-- The per-token loop of `is_correct_data`: each token must parse as a
Python float, and must not be the literal string "NaN" (checked after the
successful parse, exactly as in the source). -/
def checkTokens : List String → Bool
  | [] => true
  | d :: ds =>
    if (pyFloatParse d).isNone then false
    else if d = "NaN" then false
    else checkTokens ds

/-- `is_correct_data` from `cpap_analysis.py` (the `line` number argument,
used only for logging, is dropped): a record is valid iff it has exactly
7 tokens, every token parses as a float, and none equals "NaN". -/
def is_correct_data (patient : List String) : Bool :=
  if patient.length ≠ 7 then false
  else checkTokens patient

/-- The row loop of `load_patient`: each line is split on commas; rows
failing validation are skipped (the load continues), accepted rows are
appended in order to the accumulator. -/
def loadLoop : List String → List (List String) → List (List String)
  | [], acc => acc
  | l :: ls, acc =>
    if is_correct_data (splitComma l) then loadLoop ls (acc ++ [splitComma l])
    else loadLoop ls acc

/-- `load_patient`, with the file contents passed as its list of
newline-stripped lines.  Exactly as in the source, the split header line
is stored as the FIRST element of the returned list, followed by the
accepted data rows; an empty file yields the degenerate header `[""]`
(Python `readline` returns `""` at EOF). -/
def load_patient (lines : List String) : List (List String) :=
  match lines with
  | [] => [[""]]
  | header :: rest => loadLoop rest [splitComma header]

/-! ### Pressure conversion -/

/-- `ADC_to_pascal`: linear conversion of a raw ADC code to pascals via a
cm-H2O intermediate, exactly the two formulas of the source. -/
def ADC_to_pascal (ADC_value : ℤ) : ℚ :=
  let cm_H2O : ℚ := ((25.4 : ℚ) / (14745 - 1638)) * ((ADC_value : ℚ) - 1638)
  (98.0665 : ℚ) * cm_H2O

/-! ### Flow computation -/

/-- `flow_calculation` from the source, over idealised reals: the orifice
equation `Q = A1·sqrt((2/density)·(p1-p2)/((A1/A2)²-1))` with
`density = 1.199`, `d1 = 15·10⁻³`, `d2 = 12·10⁻³` and circular
cross-sections `A1 = π(d1/2)²`, `A2 = π(d2/2)²`. -/
noncomputable def flow_calculation (p1 p2 : ℝ) : ℝ :=
  let density : ℝ := 1.199
  let d1 : ℝ := 15 * (10 : ℝ) ^ (-3 : ℤ)
  let d2 : ℝ := 12 * (10 : ℝ) ^ (-3 : ℤ)
  let A1 := Real.pi * (d1 / 2) ^ 2
  let A2 := Real.pi * (d2 / 2) ^ 2
  A1 * Real.sqrt ((2 / density) * (p1 - p2) / ((A1 / A2) ^ 2 - 1))

/-- The argument handed to `math.sqrt` inside `flow_calculation`, computed
exactly in `ℚ`: the π factors in `A1/A2` cancel, leaving the rational
`(2/1.199)·(p1-p2)/(((15/12)²)²-1)`; `sqrtArgQ_eq_realArg` below proves
that this is the radicand of `flow_calculation`. -/
def sqrtArgQ (p1 p2 : ℚ) : ℚ :=
  (2 / (1.199 : ℚ)) * (p1 - p2) / (((15 / 12 : ℚ) ^ 2) ^ 2 - 1)

/-- `flow_calculation` with Python's `math.sqrt` domain behaviour made
explicit: a negative radicand raises `ValueError("math domain error")`,
otherwise the real flow value is produced. -/
noncomputable def flow_calculationE (p1 p2 : ℚ) : Except String ℝ :=
  if sqrtArgQ p1 p2 < 0 then Except.error "math domain error"
  else Except.ok (flow_calculation (p1 : ℝ) (p2 : ℝ))

/-- The per-record branch of `flow_analysis` at the pressure level: the
inspiratory branch when `p1_ins ≥ p1_exp`, otherwise the negated
expiratory branch. -/
noncomputable def flowOfPressures (p1_ins p1_exp p2 : ℝ) : ℝ :=
  if p1_ins ≥ p1_exp then flow_calculation p1_ins p2
  else -flow_calculation p1_exp p2

/-- Does a data row survive all the conversions performed by the
`flow_analysis` loop — `float` on the time token, `int` on the three ADC
tokens? -/
def rowParses (row : List String) : Bool :=
  (pyFloatParse (row.get! 0)).isSome && (pyIntParse (row.get! 1)).isSome &&
    (pyIntParse (row.get! 2)).isSome && (pyIntParse (row.get! 3)).isSome

/-- The radicand selected for a data row when its ADC tokens parse:
pressures from `ADC_to_pascal`, inspiratory branch iff `p1_ins ≥ p1_exp`. -/
def rowSelArg (row : List String) : Option ℚ :=
  match pyIntParse (row.get! 1), pyIntParse (row.get! 2), pyIntParse (row.get! 3) with
  | some a1, some a2, some a3 =>
    let p2 := ADC_to_pascal a1
    let p1_ins := ADC_to_pascal a2
    let p1_exp := ADC_to_pascal a3
    some (if p1_ins ≥ p1_exp then sqrtArgQ p1_ins p2 else sqrtArgQ p1_exp p2)
  | _, _, _ => none

/-- Does a data row make the selected branch of the flow equation take the
square root of a negative number? -/
def rowNegArg (row : List String) : Bool :=
  match rowSelArg row with
  | some a => decide (a < 0)
  | none => false

/-- The loop of `flow_analysis` over the validated rows (header already
dropped): convert the time token with `float`, the three ADC tokens with
`int` (a failing conversion raises, in source order), convert to pascals,
choose the branch by comparing the upstream pressures, and compute the
flow, where a negative radicand raises `math domain error`.  The first
exception aborts the whole analysis, as an uncaught Python exception
does.  (Error strings model Python's messages, minus the quotes Python
puts around the offending token.) -/
noncomputable def analyzeRows : List (List String) → Except String (List PyFloat × List ℝ)
  | [] => Except.ok ([], [])
  | row :: rest =>
    match pyFloatParse (row.get! 0) with
    | none => Except.error ("could not convert string to float: " ++ row.get! 0)
    | some t =>
      match pyIntParse (row.get! 1) with
      | none => Except.error ("invalid literal for int() with base 10: " ++ row.get! 1)
      | some a1 =>
        match pyIntParse (row.get! 2) with
        | none => Except.error ("invalid literal for int() with base 10: " ++ row.get! 2)
        | some a2 =>
          match pyIntParse (row.get! 3) with
          | none => Except.error ("invalid literal for int() with base 10: " ++ row.get! 3)
          | some a3 =>
            let p2 := ADC_to_pascal a1
            let p1_ins := ADC_to_pascal a2
            let p1_exp := ADC_to_pascal a3
            let QE : Except String ℝ :=
              if p1_ins ≥ p1_exp then flow_calculationE p1_ins p2
              else (flow_calculationE p1_exp p2).map (fun q => -q)
            match QE with
            | Except.error e => Except.error e
            | Except.ok Q =>
              match analyzeRows rest with
              | Except.error e => Except.error e
              | Except.ok tf => Except.ok (t :: tf.1, Q :: tf.2)

/-- `flow_analysis`: load and validate the file's lines, drop the header
row, then run the conversion/flow loop. -/
noncomputable def flow_analysis (lines : List String) : Except String (List PyFloat × List ℝ) :=
  analyzeRows (load_patient lines).tail

/-! ### Duration, apnea, leakage -/

/-- `calculate_duration`: `time[-1] - time[0]` (the model's total `get!`
returns 0 on an empty list, where Python would raise `IndexError`). -/
def calculate_duration (t_vs_flow : List ℚ × List ℚ) : ℚ :=
  t_vs_flow.1.getLast! - t_vs_flow.1.head!

/-- The gap-counting part of `count_apnea`, over the extracted breath
timestamps: an empty list short-circuits to 0, otherwise each adjacent
pair with a gap strictly greater than 10 seconds increments the counter. -/
def count_apnea_times (breath_times : List ℚ) : ℕ :=
  if breath_times = [] then 0
  else
    (List.range (breath_times.length - 1)).foldl
      (fun acc i => if breath_times.get! (i + 1) - breath_times.get! i > 10 then acc + 1 else acc)
      0

/-- `calculate_leakage`: left-endpoint rectangle integration of flow over
time, converted to liters.  The `Bool` component records whether the
negative-leakage warning is logged (`total_leakage_liters < 0`); the
returned value itself is never clamped. -/
def calculate_leakage (t_vs_flow : List ℚ × List ℚ) : ℚ × Bool :=
  let time := t_vs_flow.1
  let flow := t_vs_flow.2
  let dt := (time.zip time.tail).map (fun p => p.2 - p.1)
  let total_leakage : ℚ :=
    (List.range (flow.length - 1)).foldl (fun acc i => acc + flow.get! i * dt.get! i) 0
  let total_leakage_liters := total_leakage * 1000
  (total_leakage_liters, decide (total_leakage_liters < 0))

/-! ### Model of `scipy.signal.find_peaks`

`find_peaks(flow_data, height=h, prominence=pro, distance=d)` as used by
`count_breaths`: local maxima (plateaus resolved to their midpoint), then
the height filter, then the distance filter (processing peaks from the
highest to the lowest, each surviving peak removing all others closer than
`d` samples), then the prominence filter.  Loops are written with an
explicit fuel argument sized so that they never run out, keeping every
definition structurally recursive and kernel-evaluable. -/

/-- The inner plateau scan of scipy's `_local_maxima_1d`: starting at `j`
with `fuel = i_max - j`, advance while `j < i_max` and `x[j]` equals the
peak value `pv`; returns the first index past the plateau (capped at
`i_max`). -/
def plateauEnd (x : List ℚ) (pv : ℚ) : ℕ → ℕ → ℕ
  | 0, j => j
  | fuel + 1, j => if x.get! j = pv then plateauEnd x pv fuel (j + 1) else j

/-- The main loop of scipy's `_local_maxima_1d` over `x`, scanning
`i = 1, …, i_max - 1` where `i_max = length - 1`: a strict rise followed
(possibly after a plateau) by a strict drop yields a maximum at the
plateau midpoint `(left + right) / 2`, and the scan resumes just past
the plateau.  One unit of fuel is spent per iteration; since `i` strictly
increases, `fuel = length` can never be exhausted before `i ≥ i_max`. -/
def lmAux (x : List ℚ) (iMax : ℕ) : ℕ → ℕ → List ℕ
  | 0, _ => []
  | fuel + 1, i =>
    if i < iMax then
      if x.get! (i - 1) < x.get! i then
        let ia := plateauEnd x (x.get! i) (iMax - (i + 1)) (i + 1)
        if x.get! ia < x.get! i then
          (i + (ia - 1)) / 2 :: lmAux x iMax fuel (ia + 1)
        else lmAux x iMax fuel (i + 1)
      else lmAux x iMax fuel (i + 1)
    else []

/-- scipy `_local_maxima_1d`: indices of the interior local maxima of `x`,
in increasing order. -/
def localMaxima (x : List ℚ) : List ℕ :=
  lmAux x (x.length - 1) x.length 1

/-- Is `q` a peak removed by `p` in the distance filter: distinct positions
strictly closer than `d` samples.  This symmetric formulation agrees with
scipy's two one-sided `peaks[j]-peaks[k] < distance` scans over a sorted
position array. -/
def nearPeak (d p q : ℕ) : Bool :=
  decide (q ≠ p ∧ p - q < d ∧ q - p < d)

/-- Priority order of scipy's `_select_by_peak_distance`: peaks are
processed from the highest to the lowest height (`np.argsort` followed by
a reversed traversal).  With a stable argsort the reversed traversal
reaches equal-height peaks from the largest original index to the
smallest, so ties are resolved towards the larger position (numpy's
default introsort leaves tie order unspecified; the stable behaviour is
the canonical model). -/
def peakLE (xh : ℕ → ℚ) (a b : ℕ) : Prop :=
  xh b < xh a ∨ (xh a = xh b ∧ b ≤ a)

instance (xh : ℕ → ℚ) : DecidableRel (peakLE xh) := fun a b => by
  unfold peakLE; infer_instance

/-- The processing order of the distance filter: peak positions sorted by
descending height (equal heights from the larger position down). -/
def sbpdOrder (xh : ℕ → ℚ) (peaks : List ℕ) : List ℕ :=
  peaks.insertionSort (peakLE xh)

/-- The kill loop of `_select_by_peak_distance`: process the peaks in
priority order; a peak already killed is skipped, a surviving peak kills
every other peak closer than `d` samples (recorded in the `killed`
accumulator). -/
def sbpdRun (d : ℕ) (peaks : List ℕ) : List ℕ → List ℕ → List ℕ
  | [], killed => killed
  | p :: rest, killed =>
    if p ∈ killed then sbpdRun d peaks rest killed
    else sbpdRun d peaks rest (killed ++ peaks.filter (fun q => nearPeak d p q))

/-- scipy `_select_by_peak_distance`: the peaks surviving the kill loop,
in their original order. -/
def selectByPeakDistance (d : ℕ) (xh : ℕ → ℚ) (peaks : List ℕ) : List ℕ :=
  let killed := sbpdRun d peaks (sbpdOrder xh peaks) []
  peaks.filter (fun p => decide (p ∉ killed))

/-- The leftward base scan of scipy's `_peak_prominences`: walk from index
`i` down to 0 while `x[i] ≤ pv`, accumulating the minimum; stop at the
first strictly higher sample. -/
def promScanLeft (x : List ℚ) (pv : ℚ) : ℕ → ℚ → ℚ
  | 0, m => if x.get! 0 ≤ pv then min m (x.get! 0) else m
  | i + 1, m => if x.get! (i + 1) ≤ pv then promScanLeft x pv i (min m (x.get! (i + 1))) else m

/-- The rightward base scan of `_peak_prominences`: walk from index `i` up
to `i_max` (`fuel = i_max - i`) while `x[i] ≤ pv`, accumulating the
minimum; stop at the first strictly higher sample. -/
def promScanRight (x : List ℚ) (pv : ℚ) : ℕ → ℕ → ℚ → ℚ
  | 0, i, m => if x.get! i ≤ pv then min m (x.get! i) else m
  | fuel + 1, i, m =>
    if x.get! i ≤ pv then promScanRight x pv fuel (i + 1) (min m (x.get! i)) else m

/-- scipy `_peak_prominences` (with `wlen=None`) for a single peak:
`x[peak] - max(left base minimum, right base minimum)`. -/
def prominence (x : List ℚ) (peak : ℕ) : ℚ :=
  let pv := x.get! peak
  let leftMin := promScanLeft x pv peak pv
  let rightMin := promScanRight x pv (x.length - 1 - peak) peak pv
  pv - max leftMin rightMin

/-- `scipy.signal.find_peaks(x, height=h, prominence=pro, distance=d)`:
local maxima, filtered by height, then by distance, then by prominence —
in scipy's evaluation order. -/
def find_peaks (x : List ℚ) (h : ℚ) (pro : ℚ) (d : ℕ) : List ℕ :=
  let peaks := localMaxima x
  let peaks1 := peaks.filter (fun p => decide (h ≤ x.get! p))
  let peaks2 := selectByPeakDistance d (fun p => x.get! p) peaks1
  peaks2.filter (fun p => decide (pro ≤ prominence x p))

/-! ### Breath detection -/

/-- Python slice `xs[a:b]` for nonnegative bounds. -/
def pySlice (xs : List ℚ) (a b : ℕ) : List ℚ :=
  (xs.drop a).take (b - a)

/-- The pairwise validation loop of `count_breaths`: for each adjacent pair
of candidate peaks, `peaks[i]` is kept iff the sample right after it is
nonzero (`check_time`) and the half-open window up to `peaks[i+1]`
contains a zero (`check_zero`) or a negative sample (`check_negative`). -/
def validLoop (flow_data : List ℚ) (peaks : List ℕ) : List ℕ :=
  (List.range (peaks.length - 1)).foldl
    (fun acc i =>
      let check_zero := (pySlice flow_data (peaks.get! i) (peaks.get! (i + 1))).contains 0
      let check_negative := (pySlice flow_data (peaks.get! i) (peaks.get! (i + 1))).any
        (fun n => decide (n < 0))
      let check_time := flow_data.get! (peaks.get! i + 1) ≠ 0
      if check_time ∧ (check_zero ∨ check_negative) then acc ++ [peaks.get! i] else acc)
    []

/-- `count_breaths(flow_data, h=11e-5, pro=2.5e-4, d=49)`: find candidate
peaks, return early when there are none, validate adjacent pairs, append
the final peak iff a zero occurs in `flow_data[peaks[-1]:-1]`, and return
the accepted peaks with their count. -/
def count_breaths (flow_data : List ℚ) (h : ℚ) (pro : ℚ) (d : ℕ) : List ℕ × ℕ :=
  let peaks := find_peaks flow_data h pro d
  if peaks.length = 0 then ([], 0)
  else
    let valid_peaks := validLoop flow_data peaks ++
      (if (pySlice flow_data (peaks.getLast!) (flow_data.length - 1)).contains 0
       then [peaks.getLast!] else [])
    (valid_peaks, valid_peaks.length)

/-- The default thresholds of `count_breaths`: `h=11e-5`, `pro=2.5e-4`,
`d=49`. -/
def defaultH : ℚ := 11e-5

/-- Default prominence threshold `2.5e-4` of `count_breaths`. -/
def defaultPro : ℚ := 2.5e-4

/-- Default distance threshold `49` of `count_breaths`. -/
def defaultD : ℕ := 49

/-- `calculate_breath_times`: the times at which the accepted peaks occur
(`time[valid_peaks]`), or `[]` when no breath was detected. -/
def calculate_breath_times (t_vs_flow : List ℚ × List ℚ) : List ℚ :=
  let vb := count_breaths t_vs_flow.2 defaultH defaultPro defaultD
  if vb.2 = 0 then []
  else vb.1.map (fun i => t_vs_flow.1.get! i)

/-- `count_apnea`: extract the breath times, then count the
greater-than-10-second gaps. -/
def count_apnea (t_vs_flow : List ℚ × List ℚ) : ℕ :=
  count_apnea_times (calculate_breath_times t_vs_flow)

/-- `calculate_breath_rate_bpm`: breath count divided by duration, times
60.  (`ℚ` division by zero yields 0 where Python raises
`ZeroDivisionError`; the claims stay away from zero-duration inputs.) -/
def calculate_breath_rate_bpm (t_vs_flow : List ℚ × List ℚ) : ℚ :=
  let duration := calculate_duration t_vs_flow
  let breaths := (count_breaths t_vs_flow.2 defaultH defaultPro defaultD).2
  (breaths : ℚ) / duration * 60

/-! ### Metrics aggregation and the artifact path -/

/-- The last path component, as `os.path.basename` computes it on POSIX:
everything after the final `/`. -/
def pyBasename (s : String) : String :=
  String.mk ((s.toList.reverse.takeWhile (fun c => c ≠ '/')).reverse)

/-- Index of the last occurrence of `c` in `l`, if any. -/
def lastIndexOf (l : List Char) (c : Char) : Option ℕ :=
  match l.reverse.findIdx? (fun x => x = c) with
  | some i => some (l.length - 1 - i)
  | none => none

/-- The root component of CPython `os.path.splitext`: split at the last
dot when it follows the last path separator and at least one non-dot
character stands between them (leading dots of a basename never start an
extension); otherwise return the input unchanged. -/
def pySplitextRoot (s : String) : String :=
  let l := s.toList
  let sepIndex : ℤ := match lastIndexOf l '/' with | some i => (i : ℤ) | none => -1
  let dotIndex : ℤ := match lastIndexOf l '.' with | some i => (i : ℤ) | none => -1
  if sepIndex < dotIndex then
    let between := (l.drop (sepIndex + 1).toNat).take (dotIndex - sepIndex - 1).toNat
    if between.any (fun c => c ≠ '.') then String.mk (l.take dotIndex.toNat) else s
  else s

/-- The artifact name computed by `get_metrics`:
`os.path.splitext(os.path.basename(input_file))[0] + ".json"` — a bare
file name, resolved against the process working directory when opened. -/
def output_file (input_file : String) : String :=
  pySplitextRoot (pyBasename input_file) ++ ".json"

/-- The six-field metrics record of `get_metrics`. -/
structure Metrics where
  duration : ℚ
  breaths : ℕ
  breath_rate_bpm : ℚ
  breath_times : List ℚ
  apnea_count : ℕ
  leakage : ℚ
deriving DecidableEq, Repr

/-- The metrics dictionary assembled by `get_metrics` from the component
functions. -/
def metricsOf (t_vs_flow : List ℚ × List ℚ) : Metrics :=
  { duration := calculate_duration t_vs_flow
    breaths := (count_breaths t_vs_flow.2 defaultH defaultPro defaultD).2
    breath_rate_bpm := calculate_breath_rate_bpm t_vs_flow
    breath_times := calculate_breath_times t_vs_flow
    apnea_count := count_apnea t_vs_flow
    leakage := (calculate_leakage t_vs_flow).1 }

/-- `get_metrics`, with the filesystem's response to writing a given path
passed in as `write`.  The metrics are assembled first; then the file
named `output_file input_file` is written — the source wraps the write
in no try/except, so a failing write raises out of the function and the
metrics record is returned only when the write succeeds. -/
def get_metrics (t_vs_flow : List ℚ × List ℚ) (input_file : String)
    (write : String → Except String Unit) : Except String Metrics :=
  let metrics := metricsOf t_vs_flow
  match write (output_file input_file) with
  | Except.error e => Except.error e
  | Except.ok _ => Except.ok metrics

/-! ### The flow formula as the specification words it, and a concrete
flow trace -/

/-- The orifice-flow formula exactly as the specification states it: `A1`
and `A2` are the circular cross-sections of diameters 15 mm and 12 mm,
and `Q(p1,p2) = A1·sqrt((2/1.199)·(p1-p2)/((A1/A2)²-1))`. -/
noncomputable def specFlowQ (p1 p2 : ℝ) : ℝ :=
  let A1 : ℝ := Real.pi * ((15 / 1000) / 2) ^ 2
  let A2 : ℝ := Real.pi * ((12 / 1000) / 2) ^ 2
  A1 * Real.sqrt ((2 / 1.199) * (p1 - p2) / ((A1 / A2) ^ 2 - 1))

/-- A 105-sample flow trace with candidate peaks at indices 1, 50 and 99
(heights 10, 4 and 10), a zero right after the middle peak and a zero in
the tail window, used to study the height-threshold behaviour of
`count_breaths`. -/
def cxFlow : List ℚ :=
  [0] ++ [10] ++ List.replicate 48 1 ++ [4] ++ [0] ++ List.replicate 47 1 ++
    [10] ++ [1, 1, 0, 1, 1]

/-! ## Theorems -/

/-! ### Generic list auxiliaries -/

theorem get!_eq_getElem {α : Type} [Inhabited α] (l : List α) (i : ℕ) (h : i < l.length) :
    l.get! i = l[i] := by
  rw [List.get!_eq_getElem!, getElem!_pos]

theorem getLast?_eq_getLast! {α : Type} [Inhabited α] :
    ∀ l : List α, l ≠ [] → l.getLast? = some l.getLast!
  | [a], _ => rfl
  | _ :: b :: t, _ => by
    simp [List.getLast?, List.getLast!, List.getLast]

theorem foldl_range_add {M : Type} [AddCommMonoid M] (f : ℕ → M) :
    ∀ (n : ℕ) (c : M),
      (List.range n).foldl (fun a i => a + f i) c = c + ((List.range n).map f).sum
  | 0, c => by simp
  | n + 1, c => by
    rw [List.range_succ, List.foldl_append, foldl_range_add f n c]
    simp [add_assoc]

theorem foldl_range_count (P : ℕ → Prop) [DecidablePred P] :
    ∀ (n : ℕ) (acc : ℕ),
      (List.range n).foldl (fun a i => if P i then a + 1 else a) acc
        = acc + (List.range n).countP (fun i => decide (P i))
  | 0, acc => by simp
  | n + 1, acc => by
    rw [List.range_succ, List.foldl_append, foldl_range_count P n acc, List.countP_append]
    by_cases h : P n <;> simp [h, add_assoc]

theorem foldl_range_filterMap {α : Type} (P : ℕ → Prop) [DecidablePred P] (f : ℕ → α) :
    ∀ (n : ℕ) (acc : List α),
      (List.range n).foldl (fun a i => if P i then a ++ [f i] else a) acc
        = acc ++ (List.range n).filterMap (fun i => if P i then some (f i) else none)
  | 0, acc => by simp
  | n + 1, acc => by
    rw [List.range_succ, List.foldl_append, foldl_range_filterMap P f n acc,
      List.filterMap_append]
    by_cases h : P n <;> simp [h]

/-- The list of adjacent pairs of `l`, say via `zip`, coincides with
indexing at `i` and `i + 1` over `List.range (l.length - 1)`. -/
theorem zip_tail_eq_range_map {α : Type} [Inhabited α] (l : List α) :
    l.zip l.tail = (List.range (l.length - 1)).map (fun i => (l.get! i, l.get! (i + 1))) := by
  apply List.ext_getElem
  · simp only [List.length_zip, List.length_tail, List.length_map, List.length_range]
    omega
  · intro n h1 h2
    have hlen : n < l.length - 1 := by
      simpa [List.length_zip, List.length_tail] using h1
    have hn : n < l.length := by omega
    have hn1 : n + 1 < l.length := by omega
    have htail : n < l.tail.length := by simp [List.length_tail]; omega
    rw [List.getElem_zip, List.getElem_map, List.getElem_range,
      get!_eq_getElem l n hn, get!_eq_getElem l (n + 1) hn1, List.getElem_tail]

/-! ### Claim C8 — the ADC-to-pascal conversion -/

/-- Claim C8: `ADC_to_pascal 1638 = 0`, the conversion is strictly
increasing over all integer codes, and every code — in range or not —
maps through one and the same linear formula (no clamping). -/
theorem claim_c8 :
    ADC_to_pascal 1638 = 0 ∧
    (∀ a b : ℤ, a < b → ADC_to_pascal a < ADC_to_pascal b) ∧
    (∀ v : ℤ, ADC_to_pascal v = ((98.0665 * 25.4 / 13107 : ℚ)) * ((v : ℚ) - 1638)) := by
  have hform : ∀ v : ℤ, ADC_to_pascal v = ((98.0665 * 25.4 / 13107 : ℚ)) * ((v : ℚ) - 1638) := by
    intro v
    unfold ADC_to_pascal
    ring
  refine ⟨by norm_num [hform], fun a b hab => ?_, hform⟩
  rw [hform a, hform b]
  have hC : (0 : ℚ) < 98.0665 * 25.4 / 13107 := by norm_num
  have hab' : (a : ℚ) - 1638 < (b : ℚ) - 1638 := by
    have : (a : ℚ) < (b : ℚ) := by exact_mod_cast hab
    linarith
  exact mul_lt_mul_of_pos_left hab' hC

/-- Witness for C8 at the codes 0 < 1. -/
theorem claim_c8_witness :
    ADC_to_pascal 1638 = 0 ∧ ((0 : ℤ) < 1 ∧ ADC_to_pascal 0 < ADC_to_pascal 1) :=
  ⟨claim_c8.1, by decide, claim_c8.2.1 0 1 (by with_unfolding_all decide)⟩

/-! ### Claim C5 — apnea counting -/

/-- Claim C5: the apnea count equals the number of adjacent breath-time
pairs whose gap strictly exceeds 10 seconds; it is 0 on the empty and on
every single-element list, and 1 on `[0, 5, 17, 20]`. -/
theorem claim_c5 :
    (∀ ts : List ℚ, count_apnea_times ts
        = (ts.zip ts.tail).countP (fun p => decide (p.2 - p.1 > 10))) ∧
    count_apnea_times [] = 0 ∧
    (∀ t : ℚ, count_apnea_times [t] = 0) ∧
    count_apnea_times [0, 5, 17, 20] = 1 := by
  have main : ∀ ts : List ℚ, count_apnea_times ts
      = (ts.zip ts.tail).countP (fun p => decide (p.2 - p.1 > 10)) := by
    intro ts
    unfold count_apnea_times
    by_cases hts : ts = []
    · simp [hts]
    · rw [if_neg hts,
        foldl_range_count (fun i => ts.get! (i + 1) - ts.get! i > 10) (ts.length - 1) 0,
        zip_tail_eq_range_map ts, List.countP_map]
      exact (Nat.zero_add _).trans (List.countP_congr (fun x _ => Iff.rfl))
  exact ⟨main, by simp [main], fun t => by simp [main],
    by rw [main]; with_unfolding_all decide⟩

/-! ### Claim C6 — leakage integration -/

/-- Claim C6: with index-aligned sequences the returned leakage equals
1000 times the left-endpoint sum of `flow[i]·(time[i+1]-time[i])` over
all consecutive pairs; the diagnostic fires exactly when the (unclamped)
value is negative; and an all-zero flow series yields exactly 0. -/
theorem claim_c6 (time flow : List ℚ) (h : time.length = flow.length) :
    (calculate_leakage (time, flow)).1
        = 1000 * ((flow.zip ((time.zip time.tail).map (fun p => p.2 - p.1))).map
            (fun p => p.1 * p.2)).sum ∧
    ((calculate_leakage (time, flow)).2 = true ↔ (calculate_leakage (time, flow)).1 < 0) ∧
    ((∀ x ∈ flow, x = (0 : ℚ)) → (calculate_leakage (time, flow)).1 = 0) := by
  have hmain : (calculate_leakage (time, flow)).1
      = 1000 * ((flow.zip ((time.zip time.tail).map (fun p => p.2 - p.1))).map
          (fun p => p.1 * p.2)).sum := by
    simp only [calculate_leakage]
    rw [foldl_range_add (fun i => flow.get! i *
      ((time.zip time.tail).map (fun p => p.2 - p.1)).get! i) (flow.length - 1) 0]
    rw [zero_add, mul_comm]
    congr 1
    apply congrArg
    apply List.ext_getElem
    · simp only [List.length_map, List.length_range, List.length_zip, List.length_tail]
      omega
    · intro n h1 h2
      have hlen : n < flow.length - 1 := by
        simpa using h1
      have hdt : ((time.zip time.tail).map (fun p : ℚ × ℚ => p.2 - p.1)).length
          = time.length - 1 := by
        simp only [List.length_map, List.length_zip, List.length_tail]
        omega
      have hnf : n < flow.length := by omega
      have hndt : n < ((time.zip time.tail).map (fun p : ℚ × ℚ => p.2 - p.1)).length := by
        omega
      have hnt : n < time.length := by omega
      have hnt1 : n + 1 < time.length := by omega
      rw [List.getElem_map, List.getElem_range, List.getElem_map, List.getElem_zip]
      rw [get!_eq_getElem flow n hnf, get!_eq_getElem _ n hndt, List.getElem_map,
        List.getElem_zip, List.getElem_tail]
  refine ⟨hmain, ?_, ?_⟩
  · simp only [calculate_leakage]
    exact decide_eq_true_iff
  · intro hz
    rw [hmain]
    have : ((flow.zip ((time.zip time.tail).map (fun p => p.2 - p.1))).map
        (fun p : ℚ × ℚ => p.1 * p.2)).sum = 0 := by
      apply List.sum_eq_zero
      intro x hx
      obtain ⟨p, hp, rfl⟩ := List.mem_map.mp hx
      have := (List.of_mem_zip hp).1
      rw [hz p.1 this, zero_mul]
    rw [this, mul_zero]

/-- Witness for C6 at time `[0, 1]`, flow `[-1, 5]`: aligned lengths, with
the unclamped result `-1000` and the diagnostic on. -/
theorem claim_c6_witness :
    ([(0 : ℚ), 1] : List ℚ).length = ([(-1 : ℚ), 5] : List ℚ).length ∧
    (calculate_leakage ([0, 1], [-1, 5])).1
        = 1000 * ((([(-1 : ℚ), 5] : List ℚ).zip ((([(0 : ℚ), 1] : List ℚ).zip
            ([(0 : ℚ), 1] : List ℚ).tail).map (fun p => p.2 - p.1))).map
            (fun p => p.1 * p.2)).sum :=
  ⟨rfl, (claim_c6 [0, 1] [-1, 5] rfl).1⟩

/-! ### Claim C2 — the loader contract -/

theorem loadLoop_eq (ls : List String) :
    ∀ acc, loadLoop ls acc
      = acc ++ (ls.filter (fun l => is_correct_data (splitComma l))).map splitComma := by
  induction ls with
  | nil => intro acc; simp [loadLoop]
  | cons l ls ih =>
    intro acc
    by_cases hl : is_correct_data (splitComma l)
    · simp [loadLoop, hl, ih, List.filter_cons]
    · simp [loadLoop, hl, ih, List.filter_cons]

theorem checkTokens_eq (ds : List String) :
    checkTokens ds = ds.all (fun t => (pyFloatParse t).isSome && (t != "NaN")) := by
  induction ds with
  | nil => rfl
  | cons d ds ih =>
    cases hp : pyFloatParse d with
    | none => simp [checkTokens, hp]
    | some v =>
      by_cases hnan : d = "NaN"
      · simp [checkTokens, hp, hnan]
      · simp [checkTokens, hp, hnan, ih]

/-- Claim C2, amended: `load_patient` keeps the split header as the FIRST
element of its result; after it come exactly the split non-header lines
passing validation, in their original relative order; and a row is valid
iff it has exactly 7 tokens, every token parses as a Python float, and no
token is the literal string "NaN" (case-sensitive). -/
theorem claim_c2_amended :
    (∀ (header : String) (rest : List String),
        load_patient (header :: rest)
          = splitComma header ::
              (rest.filter (fun l => is_correct_data (splitComma l))).map splitComma) ∧
    (∀ toks : List String,
        is_correct_data toks
          = (decide (toks.length = 7) &&
              toks.all (fun t => (pyFloatParse t).isSome && (t != "NaN")))) := by
  constructor
  · intro header rest
    show loadLoop rest [splitComma header] = _
    rw [loadLoop_eq]
    rfl
  · intro toks
    by_cases hlen : toks.length = 7
    · simp [is_correct_data, hlen, checkTokens_eq]
    · simp [is_correct_data, hlen]

/-- Claim C2 counterexample: on a well-formed two-line input the returned
list begins with the split header line — the header is not excluded from
the result (`load_patient`'s own docstring states the same). -/
theorem claim_c2_counterexample :
    load_patient ["h1,h2,h3,h4,h5,h6,h7", "1,2,3,4,5,6,7"]
      = [["h1", "h2", "h3", "h4", "h5", "h6", "h7"],
         ["1", "2", "3", "4", "5", "6", "7"]] := by
  with_unfolding_all decide

/-! ### Claim C3 — the flow formula -/

theorem flow_calculation_eq_specFlowQ (p1 p2 : ℝ) :
    flow_calculation p1 p2 = specFlowQ p1 p2 := by
  simp only [flow_calculation, specFlowQ]
  norm_num

/-- Claim C3: for converted pressures, the emitted flow is
`A1·sqrt((2/1.199)·(p_ins-p2)/((A1/A2)²-1))` on the inspiratory branch
(`p_ins ≥ p_exp`) and the negation of the expiratory instance otherwise,
with `A1`, `A2` the circular cross-sections of diameters 15 mm and 12 mm —
positive flow is inspiration, negative is expiration. -/
theorem claim_c3 (p_ins p_exp p2 : ℝ) :
    flowOfPressures p_ins p_exp p2
      = if p_ins ≥ p_exp then specFlowQ p_ins p2 else -specFlowQ p_exp p2 := by
  unfold flowOfPressures
  split
  · rw [flow_calculation_eq_specFlowQ]
  · rw [flow_calculation_eq_specFlowQ]

/-! ### Claim C4 — the flow domain error -/

/-- The `ℚ` shadow of the radicand is faithful: over the reals, the
radicand of `flow_calculation` at rational pressures is exactly
`sqrtArgQ` (the π factors of `A1/A2` cancel). -/
theorem sqrtArgQ_eq_realArg (p1 p2 : ℚ) :
    ((sqrtArgQ p1 p2 : ℚ) : ℝ)
      = (2 / 1.199) * ((p1 : ℝ) - (p2 : ℝ)) /
          ((Real.pi * ((15 * (10 : ℝ) ^ (-3 : ℤ)) / 2) ^ 2 /
              (Real.pi * ((12 * (10 : ℝ) ^ (-3 : ℤ)) / 2) ^ 2)) ^ 2 - 1) := by
  have hratio : Real.pi * ((15 * (10 : ℝ) ^ (-3 : ℤ)) / 2) ^ 2 /
      (Real.pi * ((12 * (10 : ℝ) ^ (-3 : ℤ)) / 2) ^ 2) = ((15 / 12 : ℝ) ^ 2) := by
    rw [mul_div_mul_left _ _ Real.pi_ne_zero]
    norm_num
  rw [hratio]
  unfold sqrtArgQ
  push_cast
  norm_num

theorem flow_calculationE_neg {p1 p2 : ℚ} (h : sqrtArgQ p1 p2 < 0) :
    flow_calculationE p1 p2 = Except.error "math domain error" := by
  unfold flow_calculationE
  rw [if_pos h]

theorem flow_calculationE_nonneg {p1 p2 : ℚ} (h : ¬sqrtArgQ p1 p2 < 0) :
    flow_calculationE p1 p2 = Except.ok (flow_calculation (p1 : ℝ) (p2 : ℝ)) := by
  unfold flow_calculationE
  rw [if_neg h]

/-- Claim C4, amended: whenever some record's selected branch has a
negative radicand (`p1 < p2`), the analysis aborts with the raised
`math domain error` — no flow list is produced and no NaN/complex value
is emitted — but the error value is the bare exception, carrying no
record index. -/
theorem claim_c4_amended (rows : List (List String))
    (hparse : rows.all rowParses = true)
    (hneg : rows.any rowNegArg = true) :
    analyzeRows rows = Except.error "math domain error" := by
  induction rows with
  | nil => simp at hneg
  | cons row rest ih =>
    rw [List.all_cons, Bool.and_eq_true] at hparse
    obtain ⟨hrow, hrest⟩ := hparse
    unfold rowParses at hrow
    rw [Bool.and_eq_true, Bool.and_eq_true, Bool.and_eq_true] at hrow
    obtain ⟨⟨⟨h0, h1⟩, h2⟩, h3⟩ := hrow
    obtain ⟨t, ht⟩ := Option.isSome_iff_exists.mp h0
    obtain ⟨a1, ha1⟩ := Option.isSome_iff_exists.mp h1
    obtain ⟨a2, ha2⟩ := Option.isSome_iff_exists.mp h2
    obtain ⟨a3, ha3⟩ := Option.isSome_iff_exists.mp h3
    rw [List.any_cons] at hneg
    have hsel : rowSelArg row
        = some (if ADC_to_pascal a2 ≥ ADC_to_pascal a3
            then sqrtArgQ (ADC_to_pascal a2) (ADC_to_pascal a1)
            else sqrtArgQ (ADC_to_pascal a3) (ADC_to_pascal a1)) := by
      unfold rowSelArg
      rw [ha1, ha2, ha3]
    simp only [analyzeRows, ht, ha1, ha2, ha3]
    by_cases hbr : ADC_to_pascal a2 ≥ ADC_to_pascal a3
    · by_cases harg : sqrtArgQ (ADC_to_pascal a2) (ADC_to_pascal a1) < 0
      · rw [if_pos hbr, flow_calculationE_neg harg]
      · rw [if_pos hbr, flow_calculationE_nonneg harg]
        have hrowneg : rowNegArg row = false := by
          unfold rowNegArg
          rw [hsel, if_pos hbr]
          simpa using harg
        rw [hrowneg] at hneg
        rw [ih hrest (by simpa using hneg)]
    · by_cases harg : sqrtArgQ (ADC_to_pascal a3) (ADC_to_pascal a1) < 0
      · rw [if_neg hbr, flow_calculationE_neg harg]
        rfl
      · rw [if_neg hbr, flow_calculationE_nonneg harg]
        have hrowneg : rowNegArg row = false := by
          unfold rowNegArg
          rw [hsel, if_neg hbr]
          simpa using harg
        rw [hrowneg] at hneg
        rw [ih hrest (by simpa using hneg)]
        rfl

/-- Claim C4 counterexample: two analyses failing at different record
indices (the first at record 0, the second at record 1) raise one and the
same error value `math domain error` — the raised error does not identify
the offending record index. -/
theorem claim_c4_counterexample :
    analyzeRows [["1", "2000", "1638", "1600", "0", "0", "0"]]
      = Except.error "math domain error" ∧
    analyzeRows [["0", "1638", "2000", "1638", "0", "0", "0"],
                 ["1", "2000", "1638", "1600", "0", "0", "0"]]
      = Except.error "math domain error" := by
  constructor
  · with_unfolding_all rfl
  · with_unfolding_all rfl

/-- Witness for the amended C4 on a two-row input whose second record has
the degenerate pressure ordering. -/
theorem claim_c4_witness :
    ([["0", "1638", "2000", "1638", "0", "0", "0"],
      ["1", "2000", "1638", "1600", "0", "0", "0"]].all rowParses = true) ∧
    ([["0", "1638", "2000", "1638", "0", "0", "0"],
      ["1", "2000", "1638", "1600", "0", "0", "0"]].any rowNegArg = true) ∧
    analyzeRows [["0", "1638", "2000", "1638", "0", "0", "0"],
                 ["1", "2000", "1638", "1600", "0", "0", "0"]]
      = Except.error "math domain error" :=
  ⟨by with_unfolding_all decide, by with_unfolding_all decide,
    claim_c4_amended _ (by with_unfolding_all decide) (by with_unfolding_all decide)⟩

/-! ### Claim C10 — validation does not guarantee conversion -/

/-- Claim C10: the row `1.0,4.5,2000,2000,0,0,0` passes validation (seven
tokens, all parse as Python floats, none is the literal "NaN"), yet
`flow_analysis` of a file containing it raises `int()`'s ValueError on
the ADC token `4.5` instead of producing a flow sample. -/
theorem claim_c10 :
    is_correct_data (splitComma "1.0,4.5,2000,2000,0,0,0") = true ∧
    flow_analysis ["time,con,ins,exp,a,b,c", "1.0,4.5,2000,2000,0,0,0"]
      = Except.error "invalid literal for int() with base 10: 4.5" := by
  constructor
  · with_unfolding_all decide
  · with_unfolding_all rfl

/-! ### Claim C7 — metrics write failure and the artifact path -/

/-- Claim C7 counterexample: when the artifact write fails, `get_metrics`
propagates the write error instead of returning the in-memory metrics
record; and for the input `sample_data/patient_02.txt` the artifact is
the bare working-directory name `patient_02.json`, not the sibling path
`sample_data/patient_02.json`. -/
theorem claim_c7_counterexample :
    get_metrics ([0, 1, 2, 3], [0, 0, 0, 0]) "sample_data/patient_02.txt"
        (fun _ => Except.error "write failed")
      = Except.error "write failed" ∧
    output_file "sample_data/patient_02.txt" = "patient_02.json" := by
  constructor
  · rfl
  · with_unfolding_all decide

/-- Claim C7, amended: `get_metrics` returns the in-memory record exactly
when writing the artifact `output_file input_file` succeeds; a write
failure is reported to the caller — the raised error propagates out
unswallowed — but the record is then not returned. -/
theorem claim_c7_amended (t_vs_flow : List ℚ × List ℚ) (input_file : String)
    (write : String → Except String Unit) :
    (get_metrics t_vs_flow input_file write = Except.ok (metricsOf t_vs_flow)
        ↔ write (output_file input_file) = Except.ok ()) ∧
    (∀ e, write (output_file input_file) = Except.error e →
        get_metrics t_vs_flow input_file write = Except.error e) := by
  cases hw : write (output_file input_file) with
  | error e => simp [get_metrics, hw]
  | ok u => cases u; simp [get_metrics, hw]

/-- Witness for the amended C7 with a failing writer. -/
theorem claim_c7_witness :
    get_metrics ([], []) "a.txt" (fun _ => Except.error "boom") = Except.error "boom" :=
  (claim_c7_amended ([], []) "a.txt" (fun _ => Except.error "boom")).2 "boom" rfl

/-! ### Claim C1 — the cycle-completion filter -/

/-- Claim C1: writing `ps` for the candidate peaks returned by the
threshold peak search, `count_breaths` keeps, from each adjacent pair
`(ps i, ps (i+1))`, the left peak iff the sample right after it is
nonzero AND the half-open window from it up to the next candidate holds a
zero or a negative sample; it keeps the final candidate iff a zero occurs
between it (inclusive) and the last sample of the whole series
(exclusive); accepted peaks are emitted in original index order, and the
returned count is their number. -/
theorem claim_c1 (flow_data : List ℚ) (h pro : ℚ) (d : ℕ) :
    count_breaths flow_data h pro d
      = (let ps := find_peaks flow_data h pro d
         let accepted :=
           (ps.zip ps.tail).filterMap (fun pq =>
             if flow_data.get! (pq.1 + 1) ≠ 0 ∧
                 ((pySlice flow_data pq.1 pq.2).contains 0 ∨
                   (pySlice flow_data pq.1 pq.2).any (fun n => decide (n < 0)))
             then some pq.1 else none) ++
           (match ps.getLast? with
            | none => []
            | some p =>
              if (pySlice flow_data p (flow_data.length - 1)).contains 0 then [p] else [])
         (accepted, accepted.length)) := by
  by_cases hps : find_peaks flow_data h pro d = []
  · simp only [count_breaths, hps]
    simp
  · have hloop : validLoop flow_data (find_peaks flow_data h pro d)
        = ((find_peaks flow_data h pro d).zip (find_peaks flow_data h pro d).tail).filterMap
            (fun pq =>
              if flow_data.get! (pq.1 + 1) ≠ 0 ∧
                  ((pySlice flow_data pq.1 pq.2).contains 0 ∨
                    (pySlice flow_data pq.1 pq.2).any (fun n => decide (n < 0)))
              then some pq.1 else none) := by
      set ps := find_peaks flow_data h pro d with hpsdef
      unfold validLoop
      rw [foldl_range_filterMap
          (fun i => flow_data.get! (ps.get! i + 1) ≠ 0 ∧
            ((pySlice flow_data (ps.get! i) (ps.get! (i + 1))).contains 0 ∨
              (pySlice flow_data (ps.get! i) (ps.get! (i + 1))).any (fun n => decide (n < 0))))
          (fun i => ps.get! i) (ps.length - 1) []]
      rw [zip_tail_eq_range_map ps, List.filterMap_map]
      exact (List.nil_append _).trans (List.filterMap_congr (fun x _ => rfl)).symm
    have hlen : (find_peaks flow_data h pro d).length ≠ 0 := by
      simpa [List.length_eq_zero] using hps
    simp only [count_breaths, if_neg hlen, hloop,
      getLast?_eq_getLast! (find_peaks flow_data h pro d) hps]

/-! ### Claim C9 — height-threshold monotonicity

The pairwise cycle-completion filter destroys monotonicity of the final
breath count (see the counterexample below), but the candidate set is
monotone: lowering the height threshold only ever ADDS candidate peaks.
The work happens in the distance filter, where we show that the peaks of
height at least `h2` surviving among the candidates of the lower
threshold `h1` are exactly the survivors of the `h2` run. -/

theorem peakLE_total_aux (xh : ℕ → ℚ) (a b : ℕ) : peakLE xh a b ∨ peakLE xh b a := by
  unfold peakLE
  rcases lt_trichotomy (xh a) (xh b) with hlt | heq | hgt
  · exact Or.inr (Or.inl hlt)
  · rcases le_total a b with hab | hba
    · exact Or.inr (Or.inr ⟨heq.symm, hab⟩)
    · exact Or.inl (Or.inr ⟨heq, hba⟩)
  · exact Or.inl (Or.inl hgt)

instance instPeakLETotal (xh : ℕ → ℚ) : IsTotal ℕ (peakLE xh) :=
  ⟨peakLE_total_aux xh⟩

theorem peakLE_trans_aux (xh : ℕ → ℚ) (a b c : ℕ)
    (hab : peakLE xh a b) (hbc : peakLE xh b c) : peakLE xh a c := by
  unfold peakLE at hab hbc ⊢
  rcases hab with h1 | ⟨h1, h1'⟩ <;> rcases hbc with h2 | ⟨h2, h2'⟩
  · exact Or.inl (h2.trans h1)
  · exact Or.inl (h2 ▸ h1)
  · exact Or.inl (h1 ▸ h2)
  · exact Or.inr ⟨h1.trans h2, h2'.trans h1'⟩

instance instPeakLETrans (xh : ℕ → ℚ) : IsTrans ℕ (peakLE xh) :=
  ⟨peakLE_trans_aux xh⟩

theorem peakLE_antisymm_aux (xh : ℕ → ℚ) (a b : ℕ)
    (hab : peakLE xh a b) (hba : peakLE xh b a) : a = b := by
  unfold peakLE at hab hba
  rcases hab with h1 | ⟨h1, h1'⟩ <;> rcases hba with h2 | ⟨h2, h2'⟩
  · exact absurd (h1.trans h2) (lt_irrefl _)
  · exact absurd h1 (h2 ▸ lt_irrefl _)
  · exact absurd h2 (h1 ▸ lt_irrefl _)
  · exact le_antisymm h2' h1'

instance instPeakLEAntisymm (xh : ℕ → ℚ) : IsAntisymm ℕ (peakLE xh) :=
  ⟨peakLE_antisymm_aux xh⟩

theorem nearPeak_symm (d p q : ℕ) : nearPeak d p q = nearPeak d q p := by
  unfold nearPeak
  rw [decide_eq_decide]
  constructor
  · rintro ⟨h1, h2, h3⟩
    exact ⟨h1.symm, h3, h2⟩
  · rintro ⟨h1, h2, h3⟩
    exact ⟨h1.symm, h3, h2⟩

theorem sbpdRun_mono (d : ℕ) (peaks : List ℕ) :
    ∀ (O killed : List ℕ) {a : ℕ}, a ∈ killed → a ∈ sbpdRun d peaks O killed := by
  intro O
  induction O with
  | nil => intro killed a ha; exact ha
  | cons p rest ih =>
    intro killed a ha
    by_cases hp : p ∈ killed
    · rw [sbpdRun, if_pos hp]
      exact ih killed ha
    · rw [sbpdRun, if_neg hp]
      exact ih _ (List.mem_append_left _ ha)

theorem sbpdRun_append (d : ℕ) (peaks : List ℕ) :
    ∀ (O1 O2 killed : List ℕ),
      sbpdRun d peaks (O1 ++ O2) killed = sbpdRun d peaks O2 (sbpdRun d peaks O1 killed) := by
  intro O1
  induction O1 with
  | nil => intro O2 killed; rfl
  | cons p rest ih =>
    intro O2 killed
    by_cases hp : p ∈ killed
    · rw [List.cons_append, sbpdRun, if_pos hp, sbpdRun, if_pos hp, ih]
    · rw [List.cons_append, sbpdRun, if_neg hp, sbpdRun, if_neg hp, ih]

/-- Kill-completeness: a peak appearing in the processing order either
ends up killed itself, or every peak within distance of it ends up
killed. -/
theorem sbpdRun_killcomplete (d : ℕ) (peaks : List ℕ) :
    ∀ (O killed : List ℕ) (q : ℕ), q ∈ O →
      q ∈ sbpdRun d peaks O killed ∨
        (∀ v ∈ peaks, nearPeak d q v = true → v ∈ sbpdRun d peaks O killed) := by
  intro O
  induction O with
  | nil => intro killed q hq; exact absurd hq (List.not_mem_nil q)
  | cons p rest ih =>
    intro killed q hq
    by_cases hp : p ∈ killed
    · rw [sbpdRun, if_pos hp]
      rcases List.mem_cons.mp hq with rfl | hq'
      · exact Or.inl (sbpdRun_mono d peaks rest killed hp)
      · exact ih killed q hq'
    · rw [sbpdRun, if_neg hp]
      rcases List.mem_cons.mp hq with rfl | hq'
      · refine Or.inr (fun v hv hnear => ?_)
        refine sbpdRun_mono d peaks rest _ ?_
        exact List.mem_append_right _ (List.mem_filter.mpr ⟨hv, hnear⟩)
      · exact ih _ q hq'

/-- Phase-1 simulation: processing a list of high (`pr`-satisfying) peaks
with the full candidate array or with its `pr`-filtered subarray kills
exactly the same high peaks, provided the two starting kill sets agree on
high peaks. -/
theorem sbpdRun_filter_sim (d : ℕ) (peaks : List ℕ) (pr : ℕ → Bool) :
    ∀ (A k1 k2 : List ℕ),
      (∀ p ∈ A, pr p = true) →
      (∀ q, pr q = true → (q ∈ k1 ↔ q ∈ k2)) →
      ∀ q, pr q = true →
        (q ∈ sbpdRun d peaks A k1 ↔ q ∈ sbpdRun d (peaks.filter pr) A k2) := by
  intro A
  induction A with
  | nil => intro k1 k2 _ hinv q hq; exact hinv q hq
  | cons p rest ih =>
    intro k1 k2 hA hinv q hq
    have hp : pr p = true := hA p (List.mem_cons_self p rest)
    have hpm := hinv p hp
    by_cases hk : p ∈ k1
    · rw [sbpdRun, if_pos hk, sbpdRun, if_pos (hpm.mp hk)]
      exact ih k1 k2 (fun r hr => hA r (List.mem_cons_of_mem p hr)) hinv q hq
    · rw [sbpdRun, if_neg hk, sbpdRun, if_neg (fun hc => hk (hpm.mpr hc))]
      refine ih _ _ (fun r hr => hA r (List.mem_cons_of_mem p hr)) ?_ q hq
      intro q' hq'
      simp only [List.mem_append, List.mem_filter]
      constructor
      · rintro (h1 | ⟨h1, h2⟩)
        · exact Or.inl ((hinv q' hq').mp h1)
        · exact Or.inr ⟨⟨h1, hq'⟩, h2⟩
      · rintro (h1 | ⟨⟨h1, _⟩, h2⟩)
        · exact Or.inl ((hinv q' hq').mpr h1)
        · exact Or.inr ⟨h1, h2⟩

/-- Phase-2 freeze: once every still-alive high peak has all its
within-distance neighbours killed, processing any number of low
(`pr`-violating) peaks cannot kill any further high peak. -/
theorem sbpdRun_freeze (d : ℕ) (peaks : List ℕ) (pr : ℕ → Bool) :
    ∀ (B k : List ℕ),
      (∀ p ∈ B, pr p = false) →
      (∀ p ∈ B, p ∈ peaks) →
      (∀ q, pr q = true → q ∈ peaks → q ∉ k →
          ∀ v ∈ peaks, nearPeak d q v = true → v ∈ k) →
      ∀ q, pr q = true → (q ∈ sbpdRun d peaks B k ↔ q ∈ k) := by
  intro B
  induction B with
  | nil => intro k _ _ _ q _; exact Iff.rfl
  | cons p rest ih =>
    intro k hBf hBm H q hq
    by_cases hk : p ∈ k
    · rw [sbpdRun, if_pos hk]
      exact ih k (fun r hr => hBf r (List.mem_cons_of_mem p hr))
        (fun r hr => hBm r (List.mem_cons_of_mem p hr)) H q hq
    · rw [sbpdRun, if_neg hk]
      have hfreeze : ∀ q', pr q' = true → (q' ∈ k ++ peaks.filter (fun r => nearPeak d p r) ↔ q' ∈ k) := by
        intro q' hq'
        simp only [List.mem_append, List.mem_filter]
        constructor
        · rintro (h1 | ⟨h1, h2⟩)
          · exact h1
          · by_contra h3
            have hpmem : p ∈ peaks := hBm p (List.mem_cons_self p rest)
            have := H q' hq' h1 h3 p hpmem (by rw [nearPeak_symm]; exact h2)
            exact hk this
        · exact fun h1 => Or.inl h1
      have H' : ∀ q', pr q' = true → q' ∈ peaks →
          q' ∉ k ++ peaks.filter (fun r => nearPeak d p r) →
          ∀ v ∈ peaks, nearPeak d q' v = true →
            v ∈ k ++ peaks.filter (fun r => nearPeak d p r) := by
        intro q' h1 h2 h3 v hv hnear
        have hq'k : q' ∉ k := fun hc => h3 (List.mem_append_left _ hc)
        exact List.mem_append_left _ (H q' h1 h2 hq'k v hv hnear)
      rw [ih _ (fun r hr => hBf r (List.mem_cons_of_mem p hr))
        (fun r hr => hBm r (List.mem_cons_of_mem p hr)) H' q hq]
      exact hfreeze q hq

/-- Sorting commutes with filtering (by uniqueness of the sorted
permutation under the antisymmetric order `peakLE`). -/
theorem sbpdOrder_filter (xh : ℕ → ℚ) (pr : ℕ → Bool) (peaks : List ℕ) :
    sbpdOrder xh (peaks.filter pr) = (sbpdOrder xh peaks).filter pr := by
  apply List.eq_of_perm_of_sorted (r := peakLE xh)
  · exact (List.perm_insertionSort _ _).trans
      ((List.perm_insertionSort (peakLE xh) peaks).filter pr).symm
  · exact List.sorted_insertionSort _ _
  · exact (List.sorted_insertionSort (peakLE xh) peaks).filter pr

/-- A sorted list splits into its prefix of elements satisfying a
downward-closed predicate followed by the elements violating it. -/
theorem sorted_pred_split (xh : ℕ → ℚ) (pr : ℕ → Bool)
    (hdc : ∀ a b, peakLE xh a b → pr b = true → pr a = true) :
    ∀ O : List ℕ, List.Sorted (peakLE xh) O →
      ∃ A B, O = A ++ B ∧ (∀ p ∈ A, pr p = true) ∧ (∀ p ∈ B, pr p = false) := by
  intro O
  induction O with
  | nil => exact fun _ => ⟨[], [], rfl, by simp, by simp⟩
  | cons a O ih =>
    intro hs
    rw [List.sorted_cons] at hs
    obtain ⟨hrel, hs'⟩ := hs
    by_cases ha : pr a = true
    · obtain ⟨A, B, hAB, hA, hB⟩ := ih hs'
      refine ⟨a :: A, B, by rw [hAB, List.cons_append], ?_, hB⟩
      intro p hp
      rcases List.mem_cons.mp hp with rfl | hp'
      · exact ha
      · exact hA p hp'
    · refine ⟨[], a :: O, rfl, by simp, ?_⟩
      intro p hp
      rcases List.mem_cons.mp hp with rfl | hp'
      · exact Bool.eq_false_iff.mpr (fun hc => ha hc)
      · by_contra hc
        have hpt : pr p = true := Bool.eq_false_iff.not_left.mp hc
        exact ha (hdc a p (hrel p hp') hpt)

/-- The core distance-filter commutation: restricting the candidate array
to the peaks of height at least `h2` and running the distance filter
yields exactly the high survivors of the full run. -/
theorem selectByPeakDistance_filter (d : ℕ) (xh : ℕ → ℚ) (peaks : List ℕ) (h2 : ℚ) :
    selectByPeakDistance d xh (peaks.filter (fun p => decide (h2 ≤ xh p)))
      = (selectByPeakDistance d xh peaks).filter (fun p => decide (h2 ≤ xh p)) := by
  set pr : ℕ → Bool := fun p => decide (h2 ≤ xh p) with hprdef
  have hdc : ∀ a b, peakLE xh a b → pr b = true → pr a = true := by
    intro a b hab hb
    have hb' : h2 ≤ xh b := of_decide_eq_true hb
    have hba : xh b ≤ xh a := by
      rcases hab with h | ⟨h, _⟩
      · exact le_of_lt h
      · exact le_of_eq h.symm
    exact decide_eq_true_iff.mpr (hb'.trans hba)
  obtain ⟨A, B, hO, hA, hB⟩ :=
    sorted_pred_split xh pr hdc (sbpdOrder xh peaks) (List.sorted_insertionSort _ _)
  have horder2 : sbpdOrder xh (peaks.filter pr) = A := by
    rw [sbpdOrder_filter xh pr peaks, hO, List.filter_append,
      List.filter_eq_self.mpr hA, List.filter_eq_nil_iff.mpr
        (fun p hp => by rw [hB p hp]; exact Bool.false_ne_true), List.append_nil]
  have hBmem : ∀ p ∈ B, p ∈ peaks := by
    intro p hp
    have : p ∈ sbpdOrder xh peaks := by rw [hO]; exact List.mem_append_right _ hp
    exact (List.perm_insertionSort (peakLE xh) peaks).mem_iff.mp this
  have hAmem : ∀ q, pr q = true → q ∈ peaks → q ∈ A := by
    intro q hq hqmem
    have hO' : q ∈ sbpdOrder xh peaks :=
      (List.perm_insertionSort (peakLE xh) peaks).mem_iff.mpr hqmem
    rw [hO] at hO'
    rcases List.mem_append.mp hO' with h | h
    · exact h
    · exact absurd hq (by rw [hB q h]; exact Bool.false_ne_true)
  have HkA : ∀ q, pr q = true → q ∈ peaks → q ∉ sbpdRun d peaks A [] →
      ∀ v ∈ peaks, nearPeak d q v = true → v ∈ sbpdRun d peaks A [] := by
    intro q h1 h2' h3 v hv hnear
    rcases sbpdRun_killcomplete d peaks A [] q (hAmem q h1 h2') with hin | hall
    · exact absurd hin h3
    · exact hall v hv hnear
  have hmem_eq : ∀ q, pr q = true →
      (q ∈ sbpdRun d (peaks.filter pr) (sbpdOrder xh (peaks.filter pr)) []
        ↔ q ∈ sbpdRun d peaks (sbpdOrder xh peaks) []) := by
    intro q hq
    rw [horder2, hO, sbpdRun_append,
      sbpdRun_freeze d peaks pr B (sbpdRun d peaks A []) hB hBmem HkA q hq]
    exact (sbpdRun_filter_sim d peaks pr A [] [] hA (fun _ _ => Iff.rfl) q hq).symm
  simp only [selectByPeakDistance]
  rw [List.filter_filter, List.filter_filter]
  apply List.filter_congr
  intro p hp
  by_cases hpr : pr p = true
  · have := hmem_eq p hpr
    simp only [hpr, Bool.and_true, Bool.true_and]
    by_cases h1 : p ∈ sbpdRun d peaks (sbpdOrder xh peaks) []
    · simp [h1, this.mpr h1]
    · have h2' : p ∉ sbpdRun d (peaks.filter pr) (sbpdOrder xh (peaks.filter pr)) [] :=
        fun hc => h1 (this.mp hc)
      simp [h1, h2']
  · have hf : pr p = false := Bool.eq_false_iff.mpr (fun hc => hpr hc)
    simp [hf]

/-- Candidate monotonicity of the peak search: raising the height
threshold from `h1` to `h2` filters the candidate set — the candidates of
the higher threshold are exactly the high-enough candidates of the lower
one, for ANY prominence and distance settings. -/
theorem find_peaks_height_filter (x : List ℚ) (h1 h2 : ℚ) (hle : h1 ≤ h2)
    (pro : ℚ) (d : ℕ) :
    find_peaks x h2 pro d
      = (find_peaks x h1 pro d).filter (fun p => decide (h2 ≤ x.get! p)) := by
  simp only [find_peaks]
  have hh : (localMaxima x).filter (fun p => decide (h2 ≤ x.get! p))
      = ((localMaxima x).filter (fun p => decide (h1 ≤ x.get! p))).filter
          (fun p => decide (h2 ≤ x.get! p)) := by
    rw [List.filter_filter]
    apply List.filter_congr
    intro p _
    by_cases hp : h2 ≤ x.get! p
    · rw [decide_eq_true hp, decide_eq_true (hle.trans hp)]
      rfl
    · rw [decide_eq_false hp]
      rfl
  rw [hh, selectByPeakDistance_filter d (fun p => x.get! p)
    ((localMaxima x).filter (fun p => decide (h1 ≤ x.get! p))) h2]
  rw [List.filter_filter, List.filter_filter]
  apply List.filter_congr
  intro p _
  exact Bool.and_comm _ _

/-- Claim C9, amended: with prominence and distance at their defaults, the
CANDIDATE peaks of the threshold peak search at the higher threshold `h2`
are exactly the high-enough candidates at the lower threshold `h1 ≤ h2`,
so the candidate count is monotone non-decreasing as the height threshold
decreases; the final count after the cycle-completion filter is NOT
monotone (see the counterexample). -/
theorem claim_c9_amended (flow_data : List ℚ) (h1 h2 : ℚ) (hle : h1 ≤ h2) :
    find_peaks flow_data h2 defaultPro defaultD
        = (find_peaks flow_data h1 defaultPro defaultD).filter
            (fun p => decide (h2 ≤ flow_data.get! p)) ∧
    (find_peaks flow_data h2 defaultPro defaultD).length
        ≤ (find_peaks flow_data h1 defaultPro defaultD).length := by
  have heq := find_peaks_height_filter flow_data h1 h2 hle defaultPro defaultD
  refine ⟨heq, ?_⟩
  rw [heq]
  exact (List.filter_sublist _).length_le

set_option maxRecDepth 200000 in
/-- Claim C9 counterexample: on `cxFlow`, with prominence `2.5e-4` and
distance `49` at their defaults, LOWERING the height threshold from 5 to
1 admits a middle candidate peak that makes the cycle-completion filter
reject two previously accepted peaks — the detector count DROPS from 2
to 1, refuting monotonicity of the returned breath count. -/
theorem claim_c9_counterexample :
    (1 : ℚ) ≤ 5 ∧
    (count_breaths cxFlow 1 defaultPro defaultD).2
      < (count_breaths cxFlow 5 defaultPro defaultD).2 := by
  constructor
  · norm_num
  · with_unfolding_all decide

/-- Witness for the amended C9 at the thresholds 1 ≤ 5 on `cxFlow`. -/
theorem claim_c9_witness :
    (1 : ℚ) ≤ 5 ∧
    (find_peaks cxFlow 5 defaultPro defaultD
        = (find_peaks cxFlow 1 defaultPro defaultD).filter
            (fun p => decide ((5 : ℚ) ≤ cxFlow.get! p)) ∧
      (find_peaks cxFlow 5 defaultPro defaultD).length
        ≤ (find_peaks cxFlow 1 defaultPro defaultD).length) :=
  ⟨by norm_num, claim_c9_amended cxFlow 1 5 (by norm_num)⟩
